import Mathlib

/-!
Verification of the fingerprinting-detector repository.

The definitions below are a shallow embedding of the Python sources:
- `shannonEntropy`, `calculate_attribute_entropies` embed
  `EntropyCalculator.calculate_shannon_entropy` and
  `EntropyCalculator.calculate_attribute_entropies` (src/main.py),
  with Python floats modelled as real numbers;
- `run_single_session`, `runWebsites`, `run_experiment`,
  `generateSummaryReport` embed `ExperimentManager.run_single_session`,
  `ExperimentManager.run_experiment` and
  `ExperimentManager._generate_summary_report` (src/main.py), with the
  browser/network effects of one matrix cell abstracted into an explicit
  `CellBehavior` oracle describing which of the source's exception and
  return paths that cell takes;
- `classifyRegion` embeds the region classification of
  `ResultsAnalyzer.print_geographic_analysis` (src/analyze_results.py).
-/

namespace FPDetect

open Real

/-! ## Entropy engine (src/main.py, `EntropyCalculator`) -/

/-- `EntropyCalculator.calculate_shannon_entropy` (src/main.py:42-72):
builds the frequency table of `data` and returns
`-Σ p(x) * log2 p(x)` over the distinct values, `0.0` on empty input.
Python floats are modelled as real numbers. -/
noncomputable def shannonEntropy (data : List String) : ℝ :=
  if data = [] then 0
  else
    -∑ x ∈ data.toFinset,
      ((data.count x : ℝ) / data.length) * Real.logb 2 ((data.count x : ℝ) / data.length)

/-- One record of a category's call list: `value?` is the stringified
`'value'` field when the record carries one (`call.get('value', '')`
guarded by `'value' in call` in the source). -/
structure ApiCall where
  value? : Option String
deriving DecidableEq

/-- The value a `FingerprintLog` category maps to: either a Python list of
call records, or some non-list value (the `isinstance(calls, list)` check
in the source). -/
inductive CatData where
  | notList
  | ofList (calls : List ApiCall)
deriving DecidableEq

/-- A `FingerprintLog`: the `data` dictionary mapping category names to
captured call lists, in insertion order. -/
abbrev FingerprintLog := List (String × CatData)

/-- The stringified values extracted from one category
(`[str(call.get('value', '')) for call in calls if 'value' in call]`). -/
def catValues : CatData → List String
  | .notList => []
  | .ofList calls => calls.filterMap (fun c => c.value?)

/-- Per-category part of `calculate_attribute_entropies`
(src/main.py:85-96): a non-list or empty category scores `0.0`,
otherwise the entropy of the extracted values (`0.0` when no record
carries a value). -/
noncomputable def perCategoryEntropies (fp : FingerprintLog) : List (String × ℝ) :=
  fp.map (fun e =>
    (e.1,
      match e.2 with
      | .notList => 0
      | .ofList calls =>
        if calls.isEmpty then 0
        else
          let values := calls.filterMap (fun c => c.value?)
          if values.isEmpty then 0 else shannonEntropy values))

/-- The `all_values` accumulation of `calculate_attribute_entropies`
(src/main.py:99-102): values of every list-typed category, concatenated
in iteration order. -/
def allValues (fp : FingerprintLog) : List String :=
  (fp.map (fun e => catValues e.2)).flatten

/-- Python dictionary assignment `d[k] = v` on an association list: if the
key is present its entry is overwritten in place, otherwise the pair is
appended. -/
def dictSet (l : List (String × ℝ)) (k : String) (v : ℝ) : List (String × ℝ) :=
  if l.any (fun p => p.1 = k) then
    l.map (fun p => if p.1 = k then (k, v) else p)
  else l ++ [(k, v)]

/-- Python dictionary lookup `d.get(k)` on an association list. -/
def lookupD (l : List (String × ℝ)) (k : String) : Option ℝ :=
  (l.find? (fun p => p.1 = k)).map (fun p => p.2)

/-- `k in d` on an association list. -/
def hasKey (l : List (String × ℝ)) (k : String) : Bool :=
  l.any (fun p => p.1 = k)

/-- `d.get(k, v0)` on an association list. -/
def getD (l : List (String × ℝ)) (k : String) (v0 : ℝ) : ℝ :=
  (lookupD l k).getD v0

/-- The keys of an association list, in order. -/
def keysOf {α : Type} (l : List (String × α)) : List String :=
  l.map (fun p => p.1)

/-- `EntropyCalculator.calculate_attribute_entropies` (src/main.py:75-106):
the per-category entropies followed by the dictionary assignment
`entropies['total'] = calculate_shannon_entropy(all_values)`. -/
noncomputable def calculate_attribute_entropies (fp : FingerprintLog) : List (String × ℝ) :=
  dictSet (perCategoryEntropies fp) "total" (shannonEntropy (allValues fp))

/-! ## Geographic classification (src/analyze_results.py, `print_geographic_analysis`) -/

/-- `needle` occurs at the start of `hay`. -/
def startsWithChars : List Char → List Char → Bool
  | [], _ => true
  | _ :: _, [] => false
  | a :: as, b :: bs => a = b && startsWithChars as bs

/-- `needle in hay`: Python substring containment over character lists. -/
def containsChars (needle : List Char) : List Char → Bool
  | [] => needle.isEmpty
  | hay@(_ :: rest) => startsWithChars needle hay || containsChars needle rest

/-- Python `sub in s` on strings. -/
def strContains (hay sub : String) : Bool :=
  containsChars sub.toList hay.toList

/-- The `europe_domains` list of `print_geographic_analysis`
(src/analyze_results.py:257). -/
def europe_domains : List String :=
  [".de", ".fr", ".uk", ".es", ".it", ".nl", ".be", ".ch", ".at"]

/-- The `asia_domains` list of `print_geographic_analysis`
(src/analyze_results.py:258). -/
def asia_domains : List String :=
  [".cn", ".jp", ".kr", ".in", ".sg"]

/-- The region bucket `print_geographic_analysis`
(src/analyze_results.py:269-280) assigns to a website URL: the chained
`any(domain in website ...)` / `'.com' in website or '.org' in website`
tests, in source order. -/
def classifyRegion (website : String) : String :=
  if europe_domains.any (fun d => strContains website d) then "Europe"
  else if asia_domains.any (fun d => strContains website d) then "Asie"
  else if strContains website ".com" || strContains website ".org" then "Amérique du Nord"
  else "Autre"

/-! ## Session runner and orchestrator (src/main.py, `ExperimentManager`) -/

/-- The dictionary returned by `window.getFingerprintData()` as consumed by
`run_single_session`: `truthy` models the Python truthiness of the
returned dict (`if fingerprint_data:`), `data` models
`fingerprint_data.get('data', \x7b\x7d)`. -/
structure Fingerprint where
  truthy : Bool
  data : FingerprintLog
deriving DecidableEq

/-- Which of `visit_website`'s paths (src/main.py:234-277) one call takes:
a page-load timeout (`TimeoutException`), a `WebDriverException`, an
unexpected exception, or a successful retrieval of the fingerprint
dictionary. -/
inductive VisitBehavior where
  | timeout
  | wdError (msg : String)
  | otherError (msg : String)
  | ok (fp : Fingerprint)
deriving DecidableEq

/-- `BrowserSession.visit_website` (src/main.py:234-277): each exception
path is caught inside the method and returns `None`. -/
def visit_website : VisitBehavior → Option Fingerprint
  | .timeout => none
  | .wdError _ => none
  | .otherError _ => none
  | .ok fp => some fp

/-- What happens inside one matrix cell of `run_single_session`
(src/main.py:383-449):
- `ctorRaises`: `BrowserSession(browser, 'detector.js')` raises before the
  `try` block (e.g. the detector script file is missing);
- `startRaises`: `session.start()` raises inside the `try` block;
- `interrupted`: a `KeyboardInterrupt` arrives during the session;
- `runs v`: start succeeds and `visit_website` takes path `v`. -/
inductive CellBehavior where
  | ctorRaises (msg : String)
  | startRaises (msg : String)
  | interrupted
  | runs (v : VisitBehavior)
deriving DecidableEq

/-- An exception escaping `run_single_session`: an ordinary `Exception`
(only those raised before its `try` block escape) or a
`KeyboardInterrupt` (never caught by `except Exception`). -/
inductive PyExn where
  | exn (msg : String)
  | keyboardInterrupt
deriving DecidableEq

/-- A persisted session-result dictionary (src/main.py:412-447): the
`fingerprint_data` and `entropies` keys are only present on the success
path and `error` only on the failure paths, which the `Option` fields
model. -/
structure SessionResult where
  session_id : String
  website : String
  browser : String
  visit_number : Nat
  fingerprint_data? : Option Fingerprint
  entropies? : Option (List (String × ℝ))
  success : Bool
  error? : Option String

/-- `session_id` construction (src/main.py:395). -/
def mkSessionId (browser website : String) (visit : Nat) : String :=
  browser ++ "_" ++ ((website.replace "https://" "").replace "/" "_") ++ "_" ++ toString visit

/-- The failure-path result dictionary of `run_single_session`
(src/main.py:427-435 and 439-447): success flag down, an `error` entry,
and neither `fingerprint_data` nor `entropies` keys. -/
def failedResult (website browser : String) (visit : Nat) (msg : String) : SessionResult :=
  { session_id := mkSessionId browser website visit, website := website, browser := browser,
    visit_number := visit, fingerprint_data? := none, entropies? := none, success := false,
    error? := some msg }

/-- `ExperimentManager.run_single_session` (src/main.py:383-449) for a cell
behaving as `b`: returns the result dictionary, or the exception that
escapes the method. -/
noncomputable def run_single_session (b : CellBehavior) (website browser : String)
    (visit : Nat) : Except PyExn SessionResult :=
  match b with
  | .ctorRaises m => .error (.exn m)
  | .interrupted => .error .keyboardInterrupt
  | .startRaises m => .ok (failedResult website browser visit m)
  | .runs v =>
    match visit_website v with
    | some fp =>
      if fp.truthy then
        .ok { session_id := mkSessionId browser website visit, website := website,
              browser := browser, visit_number := visit,
              fingerprint_data? := some fp,
              entropies? := some (calculate_attribute_entropies fp.data),
              success := true, error? := none }
      else
        .ok (failedResult website browser visit "Failed to capture data")
    | none => .ok (failedResult website browser visit "Failed to capture data")

/-- The summary-report dictionary built by `_generate_summary_report`
(src/main.py:502-549). `results_summary` keeps the per-success entries'
website, browser and entropies. -/
structure SummaryReport where
  visit_number : Nat
  total_sessions : Nat
  successful_sessions : Nat
  failed_sessions : Nat
  browsers_tested : List String
  websites_count : Nat
  results_summary : List (String × String × List (String × ℝ))
  average_entropies? : Option (List (String × ℝ))

/-- One iteration of the category loop of `_generate_summary_report`
(src/main.py:535-538): collect, over the successful results containing
`cat`, the values read with `e.get(category, 0)`, and append their mean
when any were found. -/
noncomputable def avgStep (allE : List (List (String × ℝ))) (acc : List (String × ℝ))
    (cat : String) : List (String × ℝ) :=
  if ((allE.filter (fun e => hasKey e cat)).map (fun e => getD e cat 0)).isEmpty then acc
  else
    acc ++ [(cat,
      ((allE.filter (fun e => hasKey e cat)).map (fun e => getD e cat 0)).sum
        / ((allE.filter (fun e => hasKey e cat)).map (fun e => getD e cat 0)).length)]

/-- The average-entropy computation of `_generate_summary_report`
(src/main.py:528-540): iterate over the categories of the FIRST
successful result's entropies (`categories = all_entropies[0].keys()`). -/
noncomputable def avgEntropies (allE : List (List (String × ℝ))) : List (String × ℝ) :=
  match allE with
  | [] => []
  | e0 :: _ => (keysOf e0).foldl (avgStep allE) []

/-- `ExperimentManager._generate_summary_report` (src/main.py:502-549),
minus the timestamp fields. The `average_entropies` key is only added
when at least one session succeeded. -/
noncomputable def generateSummaryReport (results : List SessionResult) (visit : Nat)
    (browsers : List String) (websitesCount : Nat) : SummaryReport :=
  let succ := results.filter (fun r => r.success)
  { visit_number := visit,
    total_sessions := results.length,
    successful_sessions := succ.length,
    failed_sessions := (results.filter (fun r => !r.success)).length,
    browsers_tested := browsers,
    websites_count := websitesCount,
    results_summary :=
      succ.map (fun r => (r.website, r.browser, (r.entropies?).getD [])),
    average_entropies? :=
      if succ.length > 0 then
        some (avgEntropies (succ.map (fun r => (r.entropies?).getD [])))
      else none }

/-- The mutable state of `run_experiment` (src/main.py:451-492) together
with the persistence effects: `saved` is the sequence of results written
by `_save_result`, `started` the cells whose `run_single_session` call
began, `savedReports` the summary reports written at the end. -/
structure ExpState where
  all_results : List SessionResult
  successful_sessions : Nat
  failed_sessions : Nat
  saved : List SessionResult
  started : List (String × String)
  savedReports : List SummaryReport

/-- The initial state of `run_experiment`. -/
def ExpState.init : ExpState :=
  { all_results := [], successful_sessions := 0, failed_sessions := 0,
    saved := [], started := [], savedReports := [] }

/-- One iteration of the inner loop of `run_experiment`
(src/main.py:466-487): run the cell, and on a normal return append the
result, update the counters and persist it; an ordinary exception only
increments `failed_sessions`; a `KeyboardInterrupt` sets the returned
flag, which makes the inner loop `break`. -/
noncomputable def runCell (beh : String → String → CellBehavior) (website browser : String)
    (visit : Nat) (st : ExpState) : ExpState × Bool :=
  let st := { st with started := st.started ++ [(website, browser)] }
  match run_single_session (beh website browser) website browser visit with
  | .ok r =>
    ({ st with
        all_results := st.all_results ++ [r],
        successful_sessions := st.successful_sessions + (if r.success then 1 else 0),
        failed_sessions := st.failed_sessions + (if r.success then 0 else 1),
        saved := st.saved ++ [r] }, false)
  | .error .keyboardInterrupt => (st, true)
  | .error (.exn _) => ({ st with failed_sessions := st.failed_sessions + 1 }, false)

/-- The inner `for browser in self.browsers` loop of `run_experiment`: a
`KeyboardInterrupt` breaks out of this loop only. -/
noncomputable def runBrowsers (beh : String → String → CellBehavior) (website : String)
    (browsers : List String) (visit : Nat) (st : ExpState) : ExpState :=
  match browsers with
  | [] => st
  | b :: rest =>
    let p := runCell beh website b visit st
    if p.2 then p.1 else runBrowsers beh website rest visit p.1

/-- The outer `for website in self.websites` loop of `run_experiment`. -/
noncomputable def runWebsites (beh : String → String → CellBehavior)
    (websites : List String) (browsers : List String) (visit : Nat) (st : ExpState) : ExpState :=
  match websites with
  | [] => st
  | w :: rest => runWebsites beh rest browsers visit (runBrowsers beh w browsers visit st)

/-- `ExperimentManager.run_experiment` (src/main.py:451-492): run the
website × browser matrix, then build and persist one summary report. -/
noncomputable def run_experiment (websites browsers : List String) (visit : Nat)
    (beh : String → String → CellBehavior) : ExpState :=
  let st := runWebsites beh websites browsers visit ExpState.init
  { st with savedReports :=
      st.savedReports ++ [generateSummaryReport st.all_results visit browsers websites.length] }

/-! ## Helper lemmas about `shannonEntropy` -/

lemma shannonEntropy_nil : shannonEntropy [] = 0 := by
  simp [shannonEntropy]

lemma sum_count_toFinset (data : List String) :
    ∑ x ∈ data.toFinset, data.count x = data.length := by
  simp [Multiset.toFinset_sum_count_eq (data : Multiset String)]

lemma count_pos_of_mem_toFinset {data : List String} {x : String}
    (hx : x ∈ data.toFinset) : 0 < data.count x := by
  rw [List.mem_toFinset] at hx
  exact List.count_pos_iff.mpr hx

lemma length_pos_of_ne_nil {data : List String} (h : data ≠ []) : 0 < data.length :=
  List.length_pos.mpr h

lemma shannonEntropy_nonneg (data : List String) : 0 ≤ shannonEntropy data := by
  unfold shannonEntropy
  split
  · exact le_refl 0
  · rename_i h
    rw [le_neg, neg_zero]
    apply Finset.sum_nonpos
    intro x hx
    have hn : 0 < (data.length : ℝ) := by
      exact_mod_cast length_pos_of_ne_nil h
    have hc : 0 < (data.count x : ℝ) := by
      exact_mod_cast count_pos_of_mem_toFinset hx
    have hp0 : 0 ≤ (data.count x : ℝ) / data.length := by positivity
    have hp1 : (data.count x : ℝ) / data.length ≤ 1 := by
      rw [div_le_one hn]
      exact_mod_cast List.count_le_length x data
    have hlog : Real.logb 2 ((data.count x : ℝ) / data.length) ≤ 0 :=
      Real.logb_nonpos (by norm_num) hp0 hp1
    exact mul_nonpos_iff.mpr (Or.inl ⟨hp0, hlog⟩)

lemma shannonEntropy_ne_nil (data : List String) (h : data ≠ []) :
    shannonEntropy data
      = -∑ x ∈ data.toFinset,
          ((data.count x : ℝ) / data.length) * Real.logb 2 ((data.count x : ℝ) / data.length) := by
  simp [shannonEntropy, h]

lemma sum_prob_eq_one (data : List String) (h : data ≠ []) :
    ∑ x ∈ data.toFinset, ((data.count x : ℝ) / data.length) = 1 := by
  have hn : (0 : ℝ) < data.length := by exact_mod_cast length_pos_of_ne_nil h
  rw [← Finset.sum_div]
  rw [div_eq_one_iff_eq (ne_of_gt hn)]
  exact_mod_cast sum_count_toFinset data

lemma shannonEntropy_le_logb_card (data : List String) (h : data ≠ []) :
    shannonEntropy data ≤ Real.logb 2 data.toFinset.card := by
  have hn : (0 : ℝ) < data.length := by exact_mod_cast length_pos_of_ne_nil h
  set t := data.toFinset with ht
  set w : String → ℝ := fun x => (data.count x : ℝ) / data.length with hw
  have hwpos : ∀ x ∈ t, 0 < w x := by
    intro x hx
    have hc : (0 : ℝ) < data.count x := by exact_mod_cast count_pos_of_mem_toFinset hx
    exact div_pos hc hn
  have hsum : ∑ x ∈ t, w x = 1 := sum_prob_eq_one data h
  -- Jensen's inequality for the natural logarithm at the points (w x)⁻¹
  have jensen : ∑ x ∈ t, w x * Real.log (w x)⁻¹ ≤ Real.log (∑ x ∈ t, w x * (w x)⁻¹) := by
    have hconc : ConcaveOn ℝ (Set.Ioi 0) Real.log := strictConcaveOn_log_Ioi.concaveOn
    have := hconc.le_map_sum (t := t) (w := w) (p := fun x => (w x)⁻¹)
      (fun x hx => le_of_lt (hwpos x hx)) hsum
      (fun x hx => Set.mem_Ioi.mpr (inv_pos.mpr (hwpos x hx)))
    simpa [smul_eq_mul] using this
  have hcard : ∑ x ∈ t, w x * (w x)⁻¹ = (t.card : ℝ) := by
    rw [Finset.sum_congr rfl (fun x hx => mul_inv_cancel₀ (ne_of_gt (hwpos x hx)))]
    simp
  rw [hcard] at jensen
  have hlog2 : (0 : ℝ) < Real.log 2 := Real.log_pos (by norm_num)
  rw [shannonEntropy_ne_nil data h]
  have hrw : -∑ x ∈ t, w x * Real.logb 2 (w x)
      = (∑ x ∈ t, w x * Real.log (w x)⁻¹) / Real.log 2 := by
    rw [Finset.sum_div, ← Finset.sum_neg_distrib]
    apply Finset.sum_congr rfl
    intro x hx
    rw [Real.log_inv, Real.logb]
    field_simp
  rw [hrw, Real.logb]
  exact (div_le_div_iff_of_pos_right hlog2).mpr jensen

lemma shannonEntropy_equal_freq (data : List String) (k : ℕ) (h : data ≠ [])
    (hk : ∀ x ∈ data, data.count x = k) :
    shannonEntropy data = Real.logb 2 data.toFinset.card := by
  have hn : (0 : ℝ) < data.length := by exact_mod_cast length_pos_of_ne_nil h
  set t := data.toFinset with ht
  have hNpos : 0 < t.card := by
    rcases List.exists_mem_of_ne_nil data h with ⟨x, hx⟩
    exact Finset.card_pos.mpr ⟨x, List.mem_toFinset.mpr hx⟩
  have hlen : data.length = t.card * k := by
    rw [← sum_count_toFinset data]
    rw [Finset.sum_congr rfl (fun x hx => hk x (List.mem_toFinset.mp hx))]
    simp [mul_comm]
  have hkpos : 0 < k := by
    rcases List.exists_mem_of_ne_nil data h with ⟨x, hx⟩
    have := hk x hx
    have hc := List.count_pos_iff.mpr hx
    omega
  have hNne : ((t.card : ℝ)) ≠ 0 := by exact_mod_cast Nat.pos_iff_ne_zero.mp hNpos
  have hprob : ∀ x ∈ t, (data.count x : ℝ) / data.length = ((t.card : ℝ))⁻¹ := by
    intro x hx
    have hcx := hk x (List.mem_toFinset.mp hx)
    rw [hcx, hlen]
    have hkne : ((k : ℝ)) ≠ 0 := by exact_mod_cast Nat.pos_iff_ne_zero.mp hkpos
    push_cast
    field_simp
    ring
  rw [shannonEntropy_ne_nil data h]
  rw [Finset.sum_congr rfl (fun x hx => by rw [hprob x hx])]
  rw [Finset.sum_const, nsmul_eq_mul]
  rw [Real.logb_inv]
  field_simp

lemma toFinset_replicate_ne_zero (n : ℕ) (hn : n ≠ 0) (s : String) :
    (List.replicate n s).toFinset = {s} := by
  ext x
  simp [List.mem_replicate, hn]

lemma shannonEntropy_replicate (n : ℕ) (hn : n ≠ 0) (s : String) :
    shannonEntropy (List.replicate n s) = 0 := by
  have hne : List.replicate n s ≠ [] := by
    intro hcontra
    apply hn
    simpa using congrArg List.length hcontra
  rw [shannonEntropy_equal_freq (List.replicate n s) n hne ?hk]
  · rw [toFinset_replicate_ne_zero n hn s]
    simp
  · intro x hx
    rw [List.eq_of_mem_replicate hx]
    simp

/-! ## Helper lemmas about the dictionary operations -/

lemma find?_overwrite (l : List (String × ℝ)) (k : String) (v : ℝ) :
    (l.map (fun p => if p.1 = k then (k, v) else p)).find? (fun p => p.1 = k)
      = if l.any (fun p => p.1 = k) then some (k, v) else none := by
  induction l with
  | nil => simp
  | cons a l ih =>
    by_cases hak : a.1 = k
    · simp [hak]
    · simp only [List.map_cons, if_neg hak, List.find?_cons, List.any_cons,
        decide_eq_false hak, Bool.false_or, ih]

lemma find?_none_of_any_false (l : List (String × ℝ)) (k : String)
    (h : l.any (fun p => p.1 = k) = false) :
    l.find? (fun p => p.1 = k) = none := by
  induction l with
  | nil => simp
  | cons a l ih =>
    simp only [List.any_cons, Bool.or_eq_false_iff] at h
    simp [List.find?_cons, h.1, ih h.2]

lemma lookupD_dictSet_self (l : List (String × ℝ)) (k : String) (v : ℝ) :
    lookupD (dictSet l k v) k = some v := by
  unfold lookupD dictSet
  by_cases h : l.any (fun p => p.1 = k)
  · rw [if_pos h, find?_overwrite, if_pos h]
    rfl
  · rw [if_neg (by simp [h])]
    rw [List.find?_append, find?_none_of_any_false l k (by simp [h])]
    simp

lemma keysOf_dictSet (l : List (String × ℝ)) (k : String) (v : ℝ) :
    keysOf (dictSet l k v)
      = if l.any (fun p => p.1 = k) then keysOf l else keysOf l ++ [k] := by
  unfold dictSet keysOf
  by_cases h : l.any (fun p => p.1 = k)
  · rw [if_pos h, if_pos h, List.map_map]
    apply List.map_congr_left
    intro p _
    by_cases hp : p.1 = k <;> simp [hp]
  · rw [if_neg h, if_neg h]
    simp

lemma any_key_iff {α : Type} (l : List (String × α)) (k : String) :
    l.any (fun p => p.1 = k) = true ↔ k ∈ keysOf l := by
  simp only [keysOf, List.any_eq_true, List.mem_map, decide_eq_true_eq]

/-! ## Concrete evaluations for the worked example of the spec -/

/-- The example log of the spec: canvas values `a, a, b` and webgl value
`x`. -/
def fp0 : FingerprintLog :=
  [("canvas", .ofList [⟨some "a"⟩, ⟨some "a"⟩, ⟨some "b"⟩]),
   ("webgl", .ofList [⟨some "x"⟩])]

lemma logb_two_half : Real.logb 2 ((2 : ℝ) / 4) = -1 := by
  rw [show ((2 : ℝ) / 4) = (2 : ℝ)⁻¹ by norm_num, Real.logb_inv,
    Real.logb_self_eq_one (by norm_num)]

lemma logb_two_quarter : Real.logb 2 ((1 : ℝ) / 4) = -2 := by
  rw [show ((1 : ℝ) / 4) = ((4 : ℝ))⁻¹ by norm_num, Real.logb_inv,
    show ((4 : ℝ)) = 2 ^ (2 : ℕ) by norm_num, Real.logb_pow,
    Real.logb_self_eq_one (by norm_num)]
  norm_num

lemma entropy_aabx : shannonEntropy ["a", "a", "b", "x"] = 3 / 2 := by
  rw [shannonEntropy_ne_nil _ (by simp)]
  rw [show (["a", "a", "b", "x"] : List String).toFinset = {"a", "b", "x"} from by decide]
  rw [Finset.sum_insert (by decide), Finset.sum_insert (by decide), Finset.sum_singleton]
  rw [show List.count ("a" : String) ["a", "a", "b", "x"] = 2 from by decide]
  rw [show List.count ("b" : String) ["a", "a", "b", "x"] = 1 from by decide]
  rw [show List.count ("x" : String) ["a", "a", "b", "x"] = 1 from by decide]
  rw [show (["a", "a", "b", "x"] : List String).length = 4 from by decide]
  push_cast
  rw [logb_two_half, logb_two_quarter]
  norm_num

lemma entropy_aab_le_one : shannonEntropy ["a", "a", "b"] ≤ 1 := by
  have h := shannonEntropy_le_logb_card ["a", "a", "b"] (by simp)
  rw [show (["a", "a", "b"] : List String).toFinset.card = 2 from by decide] at h
  calc shannonEntropy ["a", "a", "b"] ≤ Real.logb 2 ((2 : ℕ) : ℝ) := h
    _ = 1 := by
        push_cast
        exact Real.logb_self_eq_one (by norm_num)

lemma entropy_single_x : shannonEntropy ["x"] = 0 := by
  have h : (["x"] : List String) = List.replicate 1 "x" := rfl
  rw [h, shannonEntropy_replicate 1 (by norm_num)]

lemma calc_fp0 :
    calculate_attribute_entropies fp0
      = [("canvas", shannonEntropy ["a", "a", "b"]),
         ("webgl", shannonEntropy ["x"]),
         ("total", shannonEntropy ["a", "a", "b", "x"])] := by
  rfl

lemma keysOf_perCategoryEntropies (fp : FingerprintLog) :
    keysOf (perCategoryEntropies fp) = keysOf fp := by
  unfold keysOf perCategoryEntropies
  rw [List.map_map]
  rfl

lemma perCategoryEntropies_nonneg (fp : FingerprintLog) :
    ∀ q ∈ perCategoryEntropies fp, 0 ≤ q.2 := by
  intro q hq
  unfold perCategoryEntropies at hq
  rw [List.mem_map] at hq
  obtain ⟨e, he, rfl⟩ := hq
  cases e.2 with
  | notList => simp
  | ofList calls =>
    by_cases h1 : calls.isEmpty
    · simp [h1]
    · by_cases h2 : (calls.filterMap fun c => c.value?).isEmpty
      · simp [h1, h2]
      · simp [h1, h2, shannonEntropy_nonneg]

lemma getD_fp0_total :
    getD (calculate_attribute_entropies fp0) "total" 0 = shannonEntropy ["a", "a", "b", "x"] := by
  rw [calc_fp0]
  rfl

lemma getD_fp0_canvas :
    getD (calculate_attribute_entropies fp0) "canvas" 0 = shannonEntropy ["a", "a", "b"] := by
  rw [calc_fp0]
  rfl

lemma getD_fp0_webgl :
    getD (calculate_attribute_entropies fp0) "webgl" 0 = shannonEntropy ["x"] := by
  rw [calc_fp0]
  rfl

/-! ## Claims about the entropy engine -/

/-- C1: for every `FingerprintLog` the `total` entry of
`calculate_attribute_entropies` equals `shannonEntropy` applied to the
concatenation (multiset union) of all extracted per-record values across
all categories; for two categories with disjoint value sets it equals the
entropy of the concatenated multiset; and on the example log with value
lists `[a, a, b]` and `[x]` the total entropy is `1.5` bits, which is
neither the sum nor the mean of the two categories' individual
entropies. -/
theorem C1_total_entropy_is_union :
    (∀ fp : FingerprintLog,
        lookupD (calculate_attribute_entropies fp) "total"
          = some (shannonEntropy (allValues fp)))
    ∧ (∀ (c1 c2 : String) (A B : List ApiCall),
        (∀ v ∈ catValues (.ofList A), v ∉ catValues (.ofList B)) →
        lookupD (calculate_attribute_entropies [(c1, .ofList A), (c2, .ofList B)]) "total"
          = some (shannonEntropy (catValues (.ofList A) ++ catValues (.ofList B))))
    ∧ (getD (calculate_attribute_entropies fp0) "total" 0 = 3 / 2
       ∧ getD (calculate_attribute_entropies fp0) "total" 0
           ≠ getD (calculate_attribute_entropies fp0) "canvas" 0
             + getD (calculate_attribute_entropies fp0) "webgl" 0
       ∧ getD (calculate_attribute_entropies fp0) "total" 0
           ≠ (getD (calculate_attribute_entropies fp0) "canvas" 0
              + getD (calculate_attribute_entropies fp0) "webgl" 0) / 2) := by
  have hc0 : 0 ≤ shannonEntropy ["a", "a", "b"] := shannonEntropy_nonneg _
  have hc1 : shannonEntropy ["a", "a", "b"] ≤ 1 := entropy_aab_le_one
  refine ⟨fun fp => lookupD_dictSet_self _ _ _, ?_, ?_, ?_, ?_⟩
  · intro c1 c2 A B _
    rw [calculate_attribute_entropies, lookupD_dictSet_self]
    congr 2
    simp [allValues, catValues]
  · rw [getD_fp0_total, entropy_aabx]
  · rw [getD_fp0_total, getD_fp0_canvas, getD_fp0_webgl, entropy_aabx, entropy_single_x]
    intro heq
    linarith
  · rw [getD_fp0_total, getD_fp0_canvas, getD_fp0_webgl, entropy_aabx, entropy_single_x]
    intro heq
    linarith

/-- Witness for C1 at a concrete disjoint pair of categories. -/
theorem C1_total_entropy_is_union_witness :
    lookupD (calculate_attribute_entropies
        [("c1", .ofList [⟨some "a"⟩]), ("c2", .ofList [⟨some "b"⟩])]) "total"
      = some (shannonEntropy
          (catValues (.ofList [⟨some "a"⟩]) ++ catValues (.ofList [⟨some "b"⟩]))) :=
  C1_total_entropy_is_union.2.1 "c1" "c2" [⟨some "a"⟩] [⟨some "b"⟩] (by decide)

/-- C2: `calculate_shannon_entropy` returns
`-Σ p(x) * log2 p(x)` over the relative frequencies of the distinct
strings, `0.0` on the empty list; every non-empty constant list scores
`0.0` and every list of `N` distinct equally-frequent values scores
`log2 N`. -/
theorem C2_shannon_formula :
    shannonEntropy ([] : List String) = 0
    ∧ (∀ data : List String, data ≠ [] →
        shannonEntropy data
          = -∑ x ∈ data.toFinset,
              ((data.count x : ℝ) / data.length)
                * Real.logb 2 ((data.count x : ℝ) / data.length))
    ∧ (∀ (s : String) (n : ℕ), n ≠ 0 → shannonEntropy (List.replicate n s) = 0)
    ∧ (∀ (data : List String) (k : ℕ), data ≠ [] → (∀ x ∈ data, data.count x = k) →
        shannonEntropy data = Real.logb 2 data.toFinset.card) := by
  exact ⟨shannonEntropy_nil, shannonEntropy_ne_nil,
    fun s n hn => shannonEntropy_replicate n hn s, shannonEntropy_equal_freq⟩

/-- Witness for C2: a constant list of length 3 scores 0 and the
two-element distinct list scores `log2 2`. -/
theorem C2_shannon_formula_witness :
    shannonEntropy (List.replicate 3 "a") = 0
    ∧ shannonEntropy ["a", "b"] = Real.logb 2 2 := by
  constructor
  · exact C2_shannon_formula.2.2.1 "a" 3 (by norm_num)
  · have h := C2_shannon_formula.2.2.2 ["a", "b"] 1 (by simp) (by decide)
    rw [show ((["a", "b"] : List String).toFinset.card) = 2 from by decide] at h
    exact_mod_cast h

/-- C8: the entropy of a non-empty list is non-negative and bounded by
`log2` of its number of distinct values, the empty list scores `0.0`, and
consequently every value of an `EntropyScore` produced by
`calculate_attribute_entropies` is non-negative. -/
theorem C8_entropy_bounds :
    shannonEntropy ([] : List String) = 0
    ∧ (∀ data : List String, 0 ≤ shannonEntropy data)
    ∧ (∀ data : List String, data ≠ [] →
        shannonEntropy data ≤ Real.logb 2 data.toFinset.card)
    ∧ (∀ (fp : FingerprintLog) (p : String × ℝ),
        p ∈ calculate_attribute_entropies fp → 0 ≤ p.2) := by
  refine ⟨shannonEntropy_nil, shannonEntropy_nonneg, shannonEntropy_le_logb_card, ?_⟩
  intro fp p hp
  unfold calculate_attribute_entropies dictSet at hp
  split at hp
  · rw [List.mem_map] at hp
    obtain ⟨q, hq, rfl⟩ := hp
    by_cases hqk : q.1 = "total"
    · simp only [if_pos hqk]
      exact shannonEntropy_nonneg _
    · simp only [if_neg hqk]
      exact perCategoryEntropies_nonneg fp q hq
  · rw [List.mem_append] at hp
    rcases hp with hp | hp
    · exact perCategoryEntropies_nonneg fp p hp
    · rw [List.mem_singleton] at hp
      rw [hp]
      exact shannonEntropy_nonneg _

/-- Witness for C8 at concrete inputs. -/
theorem C8_entropy_bounds_witness :
    shannonEntropy ["a", "a", "b"] ≤ Real.logb 2 ((["a", "a", "b"] : List String).toFinset.card)
    ∧ 0 ≤ shannonEntropy ["a", "a", "b"] := by
  constructor
  · exact C8_entropy_bounds.2.2.1 ["a", "a", "b"] (by simp)
  · exact C8_entropy_bounds.2.2.2 fp0 ("canvas", shannonEntropy ["a", "a", "b"])
      (by rw [calc_fp0]; exact List.mem_cons_self _ _)

/-- C10: the key set of the `EntropyScore` is exactly the log's category
keys plus `total`; a category literally named `total` is overwritten in
place by the aggregate entropy (so `total` never appears twice), while
every extracted value of every category still contributes to the
aggregated list. -/
theorem C10_total_key_overwrite :
    ∀ fp : FingerprintLog,
      keysOf (calculate_attribute_entropies fp)
          = (if "total" ∈ keysOf fp then keysOf fp else keysOf fp ++ ["total"])
      ∧ lookupD (calculate_attribute_entropies fp) "total"
          = some (shannonEntropy (allValues fp))
      ∧ (∀ e ∈ fp, ∀ v ∈ catValues e.2, v ∈ allValues fp) := by
  intro fp
  refine ⟨?_, lookupD_dictSet_self _ _ _, ?_⟩
  · rw [calculate_attribute_entropies, keysOf_dictSet, keysOf_perCategoryEntropies]
    by_cases h : "total" ∈ keysOf fp
    · rw [if_pos h, if_pos ((any_key_iff _ _).mpr
        (by rw [keysOf_perCategoryEntropies]; exact h))]
    · rw [if_neg h, if_neg (fun hc => h
        (by rw [← keysOf_perCategoryEntropies fp]; exact (any_key_iff _ _).mp hc))]
  · intro e he v hv
    unfold allValues
    rw [List.mem_flatten]
    exact ⟨catValues e.2, List.mem_map_of_mem _ he, hv⟩

/-- Witness for C10: the example log gains a fresh `total` key, and a log
with a category named `total` keeps a single `total` key holding the
aggregate entropy. -/
theorem C10_total_key_overwrite_witness :
    keysOf (calculate_attribute_entropies fp0) = ["canvas", "webgl", "total"]
    ∧ keysOf (calculate_attribute_entropies [("total", .ofList [⟨some "a"⟩])]) = ["total"]
    ∧ lookupD (calculate_attribute_entropies [("total", .ofList [⟨some "a"⟩])]) "total"
        = some (shannonEntropy (allValues [("total", .ofList [⟨some "a"⟩])]))
    ∧ "a" ∈ allValues fp0 := by
  refine ⟨?_, ?_, (C10_total_key_overwrite _).2.1, ?_⟩
  · have h := (C10_total_key_overwrite fp0).1
    rw [if_neg (by decide)] at h
    exact h
  · have h := (C10_total_key_overwrite [("total", .ofList [⟨some "a"⟩])]).1
    rw [if_pos (by decide)] at h
    exact h
  · exact (C10_total_key_overwrite fp0).2.2 ("canvas", .ofList [⟨some "a"⟩, ⟨some "a"⟩, ⟨some "b"⟩])
      (by decide) "a" (by decide)


/-! ## Helper lemmas about the session runner -/

lemma run_single_session_total (b : CellBehavior) (w br : String) (v : Nat)
    (hni : b ≠ .interrupted) (hnc : ∀ m, b ≠ .ctorRaises m) :
    ∃ r, run_single_session b w br v = .ok r := by
  cases b with
  | ctorRaises m => exact absurd rfl (hnc m)
  | interrupted => exact absurd rfl hni
  | startRaises m => exact ⟨_, rfl⟩
  | runs vb =>
    cases vb with
    | timeout => exact ⟨_, rfl⟩
    | wdError m => exact ⟨_, rfl⟩
    | otherError m => exact ⟨_, rfl⟩
    | ok fp =>
      by_cases ht : fp.truthy
      · exact ⟨{ session_id := mkSessionId br w v, website := w, browser := br,
                 visit_number := v, fingerprint_data? := some fp,
                 entropies? := some (calculate_attribute_entropies fp.data),
                 success := true, error? := none },
          by simp only [run_single_session, visit_website]; rw [if_pos ht]⟩
      · exact ⟨failedResult w br v "Failed to capture data",
          by simp only [run_single_session, visit_website]; rw [if_neg ht]⟩

lemma run_single_session_failed_shape (b : CellBehavior) (w br : String) (v : Nat)
    (r : SessionResult) (h : run_single_session b w br v = .ok r) (hs : r.success = false) :
    r.error? ≠ none ∧ r.entropies? = none ∧ r.fingerprint_data? = none := by
  cases b with
  | ctorRaises m => simp [run_single_session] at h
  | interrupted => simp [run_single_session] at h
  | startRaises m =>
    simp only [run_single_session, Except.ok.injEq] at h
    rw [← h]
    simp [failedResult]
  | runs vb =>
    cases vb with
    | timeout =>
      simp only [run_single_session, visit_website, Except.ok.injEq] at h
      rw [← h]
      simp [failedResult]
    | wdError m =>
      simp only [run_single_session, visit_website, Except.ok.injEq] at h
      rw [← h]
      simp [failedResult]
    | otherError m =>
      simp only [run_single_session, visit_website, Except.ok.injEq] at h
      rw [← h]
      simp [failedResult]
    | ok fp =>
      by_cases ht : fp.truthy
      · simp [run_single_session, visit_website, ht] at h
        rw [← h] at hs
        simp at hs
      · simp [run_single_session, visit_website, ht] at h
        rw [← h]
        simp [failedResult]

/-! ## Claims about the session runner -/

/-- C4: a `run_single_session` result with `success = false` always carries
an error description and has neither an `entropies` nor a
`fingerprint_data` entry; in particular a cell whose navigation times out
yields exactly such a failed result. -/
theorem C4_failure_result_shape :
    (∀ (b : CellBehavior) (w br : String) (v : Nat) (r : SessionResult),
        run_single_session b w br v = .ok r → r.success = false →
        r.error? ≠ none ∧ r.entropies? = none ∧ r.fingerprint_data? = none)
    ∧ (∀ (w br : String) (v : Nat),
        run_single_session (.runs .timeout) w br v
          = .ok (failedResult w br v "Failed to capture data")
        ∧ (failedResult w br v "Failed to capture data").success = false
        ∧ (failedResult w br v "Failed to capture data").entropies? = none
        ∧ (failedResult w br v "Failed to capture data").fingerprint_data? = none
        ∧ (failedResult w br v "Failed to capture data").error?
            = some "Failed to capture data") :=
  ⟨run_single_session_failed_shape, fun _ _ _ => ⟨rfl, rfl, rfl, rfl, rfl⟩⟩

/-- Witness for C4 at the timeout behavior on a concrete cell. -/
theorem C4_failure_result_shape_witness :
    (failedResult "https://a.com" "chrome" 1 "Failed to capture data").error? ≠ none
    ∧ (failedResult "https://a.com" "chrome" 1 "Failed to capture data").entropies? = none
    ∧ (failedResult "https://a.com" "chrome" 1 "Failed to capture data").fingerprint_data?
        = none :=
  C4_failure_result_shape.1 (.runs .timeout) "https://a.com" "chrome" 1
    (failedResult "https://a.com" "chrome" 1 "Failed to capture data") rfl rfl


/-! ## Helper lemmas about the orchestration loop -/

/-- The state after one normally-returning cell. -/
def stepState (st : ExpState) (w b : String) (r : SessionResult) : ExpState :=
  { st with
    started := st.started ++ [(w, b)],
    all_results := st.all_results ++ [r],
    successful_sessions := st.successful_sessions + (if r.success then 1 else 0),
    failed_sessions := st.failed_sessions + (if r.success then 0 else 1),
    saved := st.saved ++ [r] }

/-- The state after a cell whose exception escaped `run_single_session`. -/
def exnState (st : ExpState) (w b : String) : ExpState :=
  { st with
    started := st.started ++ [(w, b)],
    failed_sessions := st.failed_sessions + 1 }

lemma runCell_of_ok (beh : String → String → CellBehavior) (w b : String) (v : Nat)
    (st : ExpState) (r : SessionResult)
    (hr : run_single_session (beh w b) w b v = .ok r) :
    runCell beh w b v st = (stepState st w b r, false) := by
  unfold runCell stepState
  rw [hr]

lemma runCell_of_exn (beh : String → String → CellBehavior) (w b : String) (v : Nat)
    (st : ExpState) (m : String)
    (hr : run_single_session (beh w b) w b v = .error (.exn m)) :
    runCell beh w b v st = (exnState st w b, false) := by
  unfold runCell exnState
  rw [hr]

lemma run_single_session_cases (beh : String → String → CellBehavior) (w b : String) (v : Nat)
    (hni : beh w b ≠ .interrupted) :
    (∃ r, run_single_session (beh w b) w b v = .ok r)
    ∨ (∃ m, run_single_session (beh w b) w b v = .error (.exn m)) := by
  by_cases hnc : ∀ m, beh w b ≠ .ctorRaises m
  · exact Or.inl (run_single_session_total (beh w b) w b v hni hnc)
  · push_neg at hnc
    obtain ⟨m, hm⟩ := hnc
    right
    refine ⟨m, ?_⟩
    rw [hm]
    rfl

lemma runBrowsers_cons_ok (beh : String → String → CellBehavior) (w b : String)
    (bs : List String) (v : Nat) (st : ExpState) (r : SessionResult)
    (hr : run_single_session (beh w b) w b v = .ok r) :
    runBrowsers beh w (b :: bs) v st = runBrowsers beh w bs v (stepState st w b r) := by
  rw [runBrowsers, runCell_of_ok beh w b v st r hr]
  rfl

lemma runBrowsers_cons_exn (beh : String → String → CellBehavior) (w b : String)
    (bs : List String) (v : Nat) (st : ExpState) (m : String)
    (hr : run_single_session (beh w b) w b v = .error (.exn m)) :
    runBrowsers beh w (b :: bs) v st = runBrowsers beh w bs v (exnState st w b) := by
  rw [runBrowsers, runCell_of_exn beh w b v st m hr]
  rfl

lemma runBrowsers_cons_interrupt (beh : String → String → CellBehavior) (w b : String)
    (bs : List String) (v : Nat) (st : ExpState)
    (hr : run_single_session (beh w b) w b v = .error .keyboardInterrupt) :
    runBrowsers beh w (b :: bs) v st
      = { st with started := st.started ++ [(w, b)] } := by
  rw [runBrowsers]
  unfold runCell
  rw [hr]
  rfl

lemma runBrowsers_no_interrupt (beh : String → String → CellBehavior) (w : String)
    (bs : List String) (v : Nat) (st : ExpState)
    (h : ∀ b ∈ bs, beh w b ≠ .interrupted) :
    (runBrowsers beh w bs v st).started = st.started ++ bs.map (fun b => (w, b))
    ∧ (∃ tl, (runBrowsers beh w bs v st).saved = st.saved ++ tl)
    ∧ (runBrowsers beh w bs v st).savedReports = st.savedReports
    ∧ (∀ b ∈ bs, ∀ m, beh w b = .startRaises m →
        failedResult w b v m ∈ (runBrowsers beh w bs v st).saved) := by
  induction bs generalizing st with
  | nil => simp [runBrowsers]
  | cons b bs ih =>
    have hni : beh w b ≠ .interrupted := h b (List.mem_cons_self b bs)
    have hrest : ∀ b' ∈ bs, beh w b' ≠ .interrupted :=
      fun b' hb' => h b' (List.mem_cons_of_mem b hb')
    rcases run_single_session_cases beh w b v hni with ⟨r, hr⟩ | ⟨m, hr⟩
    · rw [runBrowsers_cons_ok beh w b bs v st r hr]
      obtain ⟨ih1, ⟨tl, ih2⟩, ih3, ih4⟩ := ih (stepState st w b r) hrest
      refine ⟨?_, ⟨[r] ++ tl, ?_⟩, ?_, ?_⟩
      · rw [ih1]
        simp [stepState]
      · rw [ih2]
        simp [stepState]
      · rw [ih3]
        rfl
      · intro b' hb' m' hm'
        rcases List.mem_cons.mp hb' with rfl | hb'
        · have hrm : failedResult w b' v m' = r := by
            rw [hm'] at hr
            exact Except.ok.inj hr
          rw [ih2, hrm]
          simp [stepState]
        · exact ih4 b' hb' m' hm'
    · rw [runBrowsers_cons_exn beh w b bs v st m hr]
      obtain ⟨ih1, ⟨tl, ih2⟩, ih3, ih4⟩ := ih (exnState st w b) hrest
      refine ⟨?_, ⟨tl, ?_⟩, ?_, ?_⟩
      · rw [ih1]
        simp [exnState]
      · rw [ih2]
        rfl
      · rw [ih3]
        rfl
      · intro b' hb' m' hm'
        rcases List.mem_cons.mp hb' with rfl | hb'
        · rw [hm'] at hr
          simp [run_single_session] at hr
        · exact ih4 b' hb' m' hm'

lemma runWebsites_no_interrupt (beh : String → String → CellBehavior)
    (ws bs : List String) (v : Nat) (st : ExpState)
    (h : ∀ w ∈ ws, ∀ b ∈ bs, beh w b ≠ .interrupted) :
    (runWebsites beh ws bs v st).started
        = st.started ++ (ws.map (fun w => bs.map (fun b => (w, b)))).flatten
    ∧ (∃ tl, (runWebsites beh ws bs v st).saved = st.saved ++ tl)
    ∧ (runWebsites beh ws bs v st).savedReports = st.savedReports
    ∧ (∀ w ∈ ws, ∀ b ∈ bs, ∀ m, beh w b = .startRaises m →
        failedResult w b v m ∈ (runWebsites beh ws bs v st).saved) := by
  induction ws generalizing st with
  | nil => simp [runWebsites]
  | cons w ws ih =>
    have hw : ∀ b ∈ bs, beh w b ≠ .interrupted := h w (List.mem_cons_self w ws)
    have hrest : ∀ w' ∈ ws, ∀ b ∈ bs, beh w' b ≠ .interrupted :=
      fun w' hw' => h w' (List.mem_cons_of_mem w hw')
    obtain ⟨hb1, ⟨tl1, hb2⟩, hb3, hb4⟩ := runBrowsers_no_interrupt beh w bs v st hw
    rw [runWebsites]
    obtain ⟨ih1, ⟨tl2, ih2⟩, ih3, ih4⟩ := ih (runBrowsers beh w bs v st) hrest
    refine ⟨?_, ⟨tl1 ++ tl2, ?_⟩, ?_, ?_⟩
    · rw [ih1, hb1]
      simp
    · rw [ih2, hb2]
      simp
    · rw [ih3, hb3]
    · intro w' hw' b hbmem m hm
      rcases List.mem_cons.mp hw' with rfl | hw'
      · have hmem2 := hb4 b hbmem m hm
        rw [ih2]
        exact List.mem_append_left _ hmem2
      · exact ih4 w' hw' b hbmem m hm

lemma runBrowsers_counts (beh : String → String → CellBehavior) (w : String)
    (bs : List String) (v : Nat) (st : ExpState)
    (h : ∀ b ∈ bs, beh w b ≠ .interrupted ∧ ∀ m, beh w b ≠ .ctorRaises m) :
    (runBrowsers beh w bs v st).saved.length = st.saved.length + bs.length
    ∧ (runBrowsers beh w bs v st).all_results.length
        = st.all_results.length + bs.length := by
  induction bs generalizing st with
  | nil => simp [runBrowsers]
  | cons b bs ih =>
    obtain ⟨r, hr⟩ :=
      run_single_session_total (beh w b) w b v (h b (List.mem_cons_self b bs)).1
        (h b (List.mem_cons_self b bs)).2
    rw [runBrowsers_cons_ok beh w b bs v st r hr]
    obtain ⟨ih1, ih2⟩ :=
      ih (stepState st w b r) (fun b' hb' => h b' (List.mem_cons_of_mem b hb'))
    constructor
    · rw [ih1]
      simp [stepState]
      omega
    · rw [ih2]
      simp [stepState]
      omega

lemma runWebsites_counts (beh : String → String → CellBehavior)
    (ws bs : List String) (v : Nat) (st : ExpState)
    (h : ∀ w ∈ ws, ∀ b ∈ bs, beh w b ≠ .interrupted ∧ ∀ m, beh w b ≠ .ctorRaises m) :
    (runWebsites beh ws bs v st).saved.length
        = st.saved.length + ws.length * bs.length
    ∧ (runWebsites beh ws bs v st).all_results.length
        = st.all_results.length + ws.length * bs.length := by
  induction ws generalizing st with
  | nil => simp [runWebsites]
  | cons w ws ih =>
    rw [runWebsites]
    obtain ⟨hb1, hb2⟩ := runBrowsers_counts beh w bs v st (h w (List.mem_cons_self w ws))
    obtain ⟨ih1, ih2⟩ := ih (runBrowsers beh w bs v st)
      (fun w' hw' => h w' (List.mem_cons_of_mem w hw'))
    constructor
    · rw [ih1, hb1, List.length_cons]
      ring
    · rw [ih2, hb2, List.length_cons]
      ring

lemma run_experiment_proj (ws bs : List String) (v : Nat)
    (beh : String → String → CellBehavior) :
    (run_experiment ws bs v beh).started = (runWebsites beh ws bs v ExpState.init).started
    ∧ (run_experiment ws bs v beh).saved = (runWebsites beh ws bs v ExpState.init).saved
    ∧ (run_experiment ws bs v beh).all_results
        = (runWebsites beh ws bs v ExpState.init).all_results
    ∧ (run_experiment ws bs v beh).savedReports
        = (runWebsites beh ws bs v ExpState.init).savedReports
          ++ [generateSummaryReport (runWebsites beh ws bs v ExpState.init).all_results
                v bs ws.length] :=
  ⟨rfl, rfl, rfl, rfl⟩

/-! ## Claims about the orchestration loop -/

/-- C3 (amended): any exception raised inside a cell's `try` block is
caught and converted into a failed `SessionResult` that is persisted, and
an exception escaping a cell (one raised while constructing the browser
session, before the `try` block) is caught by the experiment loop, so
every cell of the matrix still executes; but such an escaping exception
produces no persisted `SessionResult` for its cell. -/
theorem C3_partial_failure_tolerance :
    ∀ (ws bs : List String) (v : Nat) (beh : String → String → CellBehavior),
      (∀ w b, beh w b ≠ .interrupted) →
      (run_experiment ws bs v beh).started
          = (ws.map (fun w => bs.map (fun b => (w, b)))).flatten
      ∧ (∀ w ∈ ws, ∀ b ∈ bs, ∀ m, beh w b = .startRaises m →
          failedResult w b v m ∈ (run_experiment ws bs v beh).saved) := by
  intro ws bs v beh h
  obtain ⟨h1, _, _, h4⟩ := runWebsites_no_interrupt beh ws bs v ExpState.init
    (fun w _ b _ => h w b)
  refine ⟨?_, ?_⟩
  · rw [(run_experiment_proj ws bs v beh).1, h1]
    rfl
  · intro w hw b hb m hm
    rw [(run_experiment_proj ws bs v beh).2.1]
    exact h4 w hw b hb m hm

/-- The behavior exhibiting C3's counterexample: every cell raises while
constructing its `BrowserSession` (the detector script cannot be read). -/
def behC3 : String → String → CellBehavior := fun _ _ => .ctorRaises "detector.js missing"

/-- Counterexample to C3 as stated: a cell whose exception is raised while
constructing the browser session (line 398 of src/main.py, before the
`try` block) is counted as failed but no failed `SessionResult` is
persisted for it. -/
theorem C3_counterexample :
    behC3 "https://a.com" "chrome" = .ctorRaises "detector.js missing"
    ∧ (run_experiment ["https://a.com"] ["chrome"] 1 behC3).started
        = [("https://a.com", "chrome")]
    ∧ (run_experiment ["https://a.com"] ["chrome"] 1 behC3).failed_sessions = 1
    ∧ (run_experiment ["https://a.com"] ["chrome"] 1 behC3).saved = [] :=
  ⟨rfl, rfl, rfl, rfl⟩

/-- The behavior used by the C3 witness: `session.start()` raises inside
the `try` block of every cell. -/
def behStart : String → String → CellBehavior := fun _ _ => .startRaises "boom"

/-- Witness for C3 on a concrete one-cell matrix. -/
theorem C3_partial_failure_tolerance_witness :
    (run_experiment ["https://a.com"] ["chrome"] 1 behStart).started
        = [("https://a.com", "chrome")]
    ∧ failedResult "https://a.com" "chrome" 1 "boom"
        ∈ (run_experiment ["https://a.com"] ["chrome"] 1 behStart).saved := by
  have h := C3_partial_failure_tolerance ["https://a.com"] ["chrome"] 1 behStart
    (fun _ _ hc => CellBehavior.noConfusion hc)
  refine ⟨?_, ?_⟩
  · rw [h.1]
    rfl
  · exact h.2 "https://a.com" (List.mem_singleton.mpr rfl) "chrome"
      (List.mem_singleton.mpr rfl) "boom" rfl

/-- C5 (amended): absent operator interrupt and absent exceptions escaping
`run_single_session` (session-construction failures), a run over `W`
websites and `B` browsers starts its cells in website-major,
browser-minor order, persists exactly `W * B` `SessionResult`s and
exactly one `SummaryReport`, whose `total_sessions` is `W * B`. -/
theorem C5_full_matrix_run :
    ∀ (ws bs : List String) (v : Nat) (beh : String → String → CellBehavior),
      (∀ w b, beh w b ≠ .interrupted) →
      (∀ w b m, beh w b ≠ .ctorRaises m) →
      (run_experiment ws bs v beh).saved.length = ws.length * bs.length
      ∧ (run_experiment ws bs v beh).started
          = (ws.map (fun w => bs.map (fun b => (w, b)))).flatten
      ∧ (run_experiment ws bs v beh).savedReports.length = 1
      ∧ (run_experiment ws bs v beh).savedReports.map (fun rep => rep.total_sessions)
          = [ws.length * bs.length] := by
  intro ws bs v beh hni hnc
  obtain ⟨hc1, hc2⟩ := runWebsites_counts beh ws bs v ExpState.init
    (fun w _ b _ => ⟨hni w b, hnc w b⟩)
  obtain ⟨h1, _, h3, _⟩ := runWebsites_no_interrupt beh ws bs v ExpState.init
    (fun w _ b _ => hni w b)
  obtain ⟨hp1, hp2, hp3, hp4⟩ := run_experiment_proj ws bs v beh
  refine ⟨?_, ?_, ?_, ?_⟩
  · rw [hp2, hc1]
    simp [ExpState.init]
  · rw [hp1, h1]
    rfl
  · rw [hp4, h3]
    rfl
  · rw [hp4, h3]
    show [(generateSummaryReport (runWebsites beh ws bs v ExpState.init).all_results
        v bs ws.length).total_sessions] = _
    rw [show (generateSummaryReport (runWebsites beh ws bs v ExpState.init).all_results
        v bs ws.length).total_sessions
      = (runWebsites beh ws bs v ExpState.init).all_results.length from rfl, hc2]
    simp [ExpState.init]

/-- The behavior exhibiting C5's counterexample: one cell raises during
session construction, every other cell times out. -/
def behC5 : String → String → CellBehavior := fun w b =>
  if w = "https://a.com" ∧ b = "chrome" then .ctorRaises "no detector script"
  else .runs .timeout

/-- Counterexample to C5 as stated: with no operator interrupt, a 2 × 2
matrix in which one cell's session construction raises persists only 3
`SessionResult`s and its report says `total_sessions = 3`, not 4. -/
theorem C5_counterexample :
    behC5 "https://a.com" "chrome" = .ctorRaises "no detector script"
    ∧ ((["https://a.com", "https://b.com"] : List String).map (fun w =>
        (["chrome", "firefox"] : List String).map (fun b =>
          decide (behC5 w b = .interrupted))))
        = [[false, false], [false, false]]
    ∧ (run_experiment ["https://a.com", "https://b.com"] ["chrome", "firefox"] 1
        behC5).saved.length = 3
    ∧ (run_experiment ["https://a.com", "https://b.com"] ["chrome", "firefox"] 1
        behC5).savedReports.map (fun rep => rep.total_sessions) = [3] :=
  ⟨rfl, rfl, rfl, rfl⟩

/-- Witness for C5 on a concrete 2 × 2 matrix in which every cell times
out. -/
theorem C5_full_matrix_run_witness :
    (run_experiment ["https://a.com", "https://b.com"] ["chrome", "firefox"] 1
        (fun _ _ => .runs .timeout)).saved.length = 4
    ∧ (run_experiment ["https://a.com", "https://b.com"] ["chrome", "firefox"] 1
        (fun _ _ => .runs .timeout)).started
        = [("https://a.com", "chrome"), ("https://a.com", "firefox"),
           ("https://b.com", "chrome"), ("https://b.com", "firefox")]
    ∧ (run_experiment ["https://a.com", "https://b.com"] ["chrome", "firefox"] 1
        (fun _ _ => .runs .timeout)).savedReports.map (fun rep => rep.total_sessions)
        = [4] := by
  have h := C5_full_matrix_run ["https://a.com", "https://b.com"] ["chrome", "firefox"] 1
    (fun _ _ => .runs .timeout) (fun _ _ hc => CellBehavior.noConfusion hc)
    (fun _ _ _ hc => CellBehavior.noConfusion hc)
  exact ⟨h.1.trans rfl, h.2.1.trans rfl, h.2.2.2.trans rfl⟩

/-- The behavior exhibiting the C7 divergence: the operator interrupt
arrives during the very first cell. -/
def behC7 : String → String → CellBehavior := fun w _ =>
  if w = "https://a.com" then .interrupted else .runs .timeout

/-- C7: the `KeyboardInterrupt` handler sits on the inner browser loop and
its `break` leaves only that loop, so after an interrupt during the first
website's first cell the remaining browsers of that website are skipped
but every cell of the next website still starts — the run does not
terminate. -/
theorem C7_interrupt_only_breaks_inner_loop :
    behC7 "https://a.com" "chrome" = .interrupted
    ∧ (run_experiment ["https://a.com", "https://b.com"] ["chrome", "firefox"] 1
        behC7).started
        = [("https://a.com", "chrome"), ("https://b.com", "chrome"),
           ("https://b.com", "firefox")]
    ∧ (run_experiment ["https://a.com", "https://b.com"] ["chrome", "firefox"] 1
        behC7).saved.length = 2 :=
  ⟨rfl, rfl, rfl⟩

/-! ## Helper lemmas about the summary report averages -/

lemma foldl_avgStep_append (allE : List (List (String × ℝ))) (keys : List String) :
    ∀ acc, ∃ tl, keys.foldl (avgStep allE) acc = acc ++ tl := by
  induction keys with
  | nil =>
    intro acc
    exact ⟨[], by simp⟩
  | cons k keys ih =>
    intro acc
    rw [List.foldl_cons]
    by_cases hv : ((allE.filter (fun e => hasKey e k)).map (fun e => getD e k 0)).isEmpty
    · have hstep : avgStep allE acc k = acc := by
        unfold avgStep
        rw [if_pos hv]
      rw [hstep]
      exact ih acc
    · have hstep : avgStep allE acc k
          = acc ++ [(k,
              ((allE.filter (fun e => hasKey e k)).map (fun e => getD e k 0)).sum
                / ((allE.filter (fun e => hasKey e k)).map (fun e => getD e k 0)).length)] := by
        unfold avgStep
        rw [if_neg hv]
      rw [hstep]
      obtain ⟨tl, htl⟩ := ih (acc ++ [(k,
        ((allE.filter (fun e => hasKey e k)).map (fun e => getD e k 0)).sum
          / ((allE.filter (fun e => hasKey e k)).map (fun e => getD e k 0)).length)])
      rw [htl, List.append_assoc]
      exact ⟨_, rfl⟩

lemma lookupD_foldl_avgStep (allE : List (List (String × ℝ))) (keys : List String) :
    ∀ acc cat, cat ∈ keys →
      ¬((allE.filter (fun e => hasKey e cat)).map (fun e => getD e cat 0)).isEmpty →
      acc.any (fun p => p.1 = cat) = false →
      lookupD (keys.foldl (avgStep allE) acc) cat
        = some (((allE.filter (fun e => hasKey e cat)).map (fun e => getD e cat 0)).sum
            / ((allE.filter (fun e => hasKey e cat)).map (fun e => getD e cat 0)).length) := by
  induction keys with
  | nil =>
    intro acc cat hmem
    cases hmem
  | cons k keys ih =>
    intro acc cat hmem hval hacc
    rw [List.foldl_cons]
    by_cases hk : cat = k
    · subst hk
      have hstep : avgStep allE acc cat
          = acc ++ [(cat,
              ((allE.filter (fun e => hasKey e cat)).map (fun e => getD e cat 0)).sum
                / ((allE.filter (fun e => hasKey e cat)).map (fun e => getD e cat 0)).length)] := by
        unfold avgStep
        rw [if_neg hval]
      rw [hstep]
      obtain ⟨tl, htl⟩ := foldl_avgStep_append allE keys (acc ++ [(cat,
        ((allE.filter (fun e => hasKey e cat)).map (fun e => getD e cat 0)).sum
          / ((allE.filter (fun e => hasKey e cat)).map (fun e => getD e cat 0)).length)])
      rw [htl]
      unfold lookupD
      rw [List.append_assoc, List.find?_append, find?_none_of_any_false acc cat hacc]
      simp
    · have hk' : ¬(k = cat) := fun hh => hk hh.symm
      have hany : (avgStep allE acc k).any (fun p => p.1 = cat) = false := by
        unfold avgStep
        by_cases hv : ((allE.filter (fun e => hasKey e k)).map (fun e => getD e k 0)).isEmpty
        · rw [if_pos hv]
          exact hacc
        · rw [if_neg hv]
          simp [List.any_append, hacc, hk']
      have hmem' : cat ∈ keys := by
        rcases List.mem_cons.mp hmem with h | h
        · exact absurd h hk
        · exact h
      exact ih (avgStep allE acc k) cat hmem' hval hany

/-! ## Claim about the summary report -/

/-- C6 (amended): in a run with at least one successful session, the
report's `average_entropies` maps every category of the FIRST successful
result's entropies to the mean of that category's values across the
successful results that contain it (categories appearing only in later
successful results are dropped). -/
theorem C6_average_entropies_first_keys :
    ∀ (results : List SessionResult) (v : Nat) (bs : List String) (wc : Nat)
      (e0 : List (String × ℝ)) (es : List (List (String × ℝ))),
      (results.filter (fun r => r.success)).map (fun r => (r.entropies?).getD [])
          = e0 :: es →
      ∀ cat ∈ keysOf e0,
        ∃ avgE, (generateSummaryReport results v bs wc).average_entropies? = some avgE
          ∧ lookupD avgE cat
              = some ((((e0 :: es).filter (fun e => hasKey e cat)).map
                    (fun e => getD e cat 0)).sum
                  / (((e0 :: es).filter (fun e => hasKey e cat)).map
                    (fun e => getD e cat 0)).length) := by
  intro results v bs wc e0 es hmap cat hcat
  have hsucc : (results.filter (fun r => r.success)).length > 0 := by
    have hlen := congrArg List.length hmap
    rw [List.length_map] at hlen
    rw [hlen]
    simp
  have hk0 : hasKey e0 cat = true := (any_key_iff e0 cat).mpr hcat
  have hval : ¬(((e0 :: es).filter (fun e => hasKey e cat)).map
      (fun e => getD e cat 0)).isEmpty := by
    simp [List.filter_cons, hk0]
  refine ⟨avgEntropies ((results.filter (fun r => r.success)).map
      (fun r => (r.entropies?).getD [])), ?_, ?_⟩
  · simp only [generateSummaryReport]
    rw [if_pos hsucc]
  · rw [hmap]
    rw [show avgEntropies (e0 :: es) = (keysOf e0).foldl (avgStep (e0 :: es)) [] from rfl]
    exact lookupD_foldl_avgStep (e0 :: es) (keysOf e0) [] cat hcat hval (by simp)

/-- A successful session on a site whose fingerprint dictionary is truthy
but carries an empty `data` dictionary: its entropies are just
`total = 0`. -/
noncomputable def resA : SessionResult :=
  { session_id := mkSessionId "chrome" "https://a.com" 1, website := "https://a.com",
    browser := "chrome", visit_number := 1, fingerprint_data? := some ⟨true, []⟩,
    entropies? := some (calculate_attribute_entropies []), success := true, error? := none }

/-- The captured log of the second successful session of C6's
counterexample. -/
def fpB0 : FingerprintLog := [("canvas", .ofList [⟨some "u"⟩, ⟨some "w"⟩])]

/-- A successful session that also observed a `canvas` category. -/
noncomputable def resB : SessionResult :=
  { session_id := mkSessionId "chrome" "https://b.com" 1, website := "https://b.com",
    browser := "chrome", visit_number := 1, fingerprint_data? := some ⟨true, fpB0⟩,
    entropies? := some (calculate_attribute_entropies fpB0), success := true, error? := none }

/-- Counterexample to C6 as stated: both sessions are genuine
`run_single_session` successes, `canvas` appears in the second successful
result's entropies, yet `average_entropies` of the report has only the
key `total` — `canvas` is not mapped at all. -/
theorem C6_counterexample :
    run_single_session (.runs (.ok ⟨true, []⟩)) "https://a.com" "chrome" 1 = .ok resA
    ∧ run_single_session (.runs (.ok ⟨true, fpB0⟩)) "https://b.com" "chrome" 1 = .ok resB
    ∧ resB.success = true
    ∧ "canvas" ∈ keysOf ((resB.entropies?).getD [])
    ∧ keysOf ((generateSummaryReport [resA, resB] 1 ["chrome"] 2).average_entropies?.getD [])
        = ["total"] := by
  refine ⟨rfl, rfl, rfl, ?_, rfl⟩
  show "canvas" ∈ (["canvas", "total"] : List String)
  decide

/-- Witness for C6 on a one-session run. -/
theorem C6_average_entropies_first_keys_witness :
    ∃ avgE, (generateSummaryReport [resA] 1 ["chrome"] 1).average_entropies? = some avgE
      ∧ lookupD avgE "total"
          = some (((([calculate_attribute_entropies []] : List (List (String × ℝ))).filter
                (fun e => hasKey e "total")).map (fun e => getD e "total" 0)).sum
              / ((([calculate_attribute_entropies []] : List (List (String × ℝ))).filter
                (fun e => hasKey e "total")).map (fun e => getD e "total" 0)).length) :=
  C6_average_entropies_first_keys [resA] 1 ["chrome"] 1 (calculate_attribute_entropies []) []
    rfl "total" (by show "total" ∈ (["total"] : List String); decide)

/-! ## Claim about the geographic classification -/

/-- Counterexample to C9 as stated: `https://www.channel.com` has
top-level domain suffix `.com` (and no Europe suffix as a suffix), so the
claim buckets it North America, but the code's substring test sees `.ch`
inside `.channel` and buckets it Europe. -/
theorem C9_counterexample :
    classifyRegion "https://www.channel.com" = "Europe"
    ∧ (".com".toList.isSuffixOf "https://www.channel.com".toList) = true
    ∧ europe_domains.all
        (fun d => !(d.toList.isSuffixOf "https://www.channel.com".toList)) = true :=
  ⟨rfl, rfl, rfl⟩

/-- C9 (amended): the geographic analysis classifies by substring
containment over the whole URL, tested in order: any Europe suffix
occurring anywhere in the URL gives Europe; otherwise any Asia suffix
anywhere gives Asia; otherwise `.com` or `.org` anywhere gives North
America; otherwise Other. -/
theorem C9_region_by_substring :
    ∀ w : String,
      (classifyRegion w = "Europe"
          ↔ europe_domains.any (fun d => strContains w d) = true)
      ∧ (classifyRegion w = "Asie"
          ↔ (europe_domains.any (fun d => strContains w d) = false
             ∧ asia_domains.any (fun d => strContains w d) = true))
      ∧ (classifyRegion w = "Amérique du Nord"
          ↔ (europe_domains.any (fun d => strContains w d) = false
             ∧ asia_domains.any (fun d => strContains w d) = false
             ∧ (strContains w ".com" || strContains w ".org") = true))
      ∧ (classifyRegion w = "Autre"
          ↔ (europe_domains.any (fun d => strContains w d) = false
             ∧ asia_domains.any (fun d => strContains w d) = false
             ∧ (strContains w ".com" || strContains w ".org") = false)) := by
  intro w
  unfold classifyRegion
  by_cases h1 : europe_domains.any (fun d => strContains w d)
  · simp [h1]
  · by_cases h2 : asia_domains.any (fun d => strContains w d)
    · simp [h1, h2]
    · by_cases h3 : (strContains w ".com" || strContains w ".org")
      · simp [h1, h2, h3]
      · simp [h1, h2, h3]

end FPDetect
